import Mathlib

/-!
# Verification of the LXD VM image vault (multipass)

Shallow embedding of `src/platform/backends/lxd/lxd_vm_image_vault.cpp`.

The vault talks to an LXD daemon over HTTP (`lxd_request`).  We model the
network as an environment that supplies the response to each request the
code issues, and we record every request (and log line / callback
invocation) in an event trace, so that theorems can speak about which
requests were issued and in what order.  `lxd_request` can fail with a
distinguished not-found error (`LXDNotFoundException`) or a generic
transport error; responses relevant to a claim are modelled explicitly,
well-behaved success is assumed elsewhere.
-/

namespace Multipass

/-- Embeds `Query::Type` from the multipass query descriptor. -/
inductive QueryType
  | Alias
  | LocalFile
  | HttpDownload
deriving DecidableEq, Repr

/-- Embeds `mp::Query`: a request descriptor (the `persistent` flag is unused by
the LXD vault and omitted). -/
structure Query where
  name : String
  release : String
  remote_name : String
  query_type : QueryType
deriving DecidableEq, Repr

/-- Embeds `mp::VMImageInfo`: catalog metadata for a resolved image (the fields
the LXD vault reads). -/
structure VMImageInfo where
  id : String
  aliases : List String
  release_title : String
  version : String
  stream_location : String
deriving DecidableEq, Repr

/-- Embeds `mp::VMImage`: the materialized image record returned by the vault.
All fields default-construct to empty, as in the C++ struct. -/
structure VMImage where
  image_path : String := ""
  kernel_path : String := ""
  initrd_path : String := ""
  id : String := ""
  original_release : String := ""
  release_date : String := ""
  aliases : List String := []
  stream_location : String := ""
deriving DecidableEq, Repr

/-- Outcome of one `lxd_request`: parsed JSON payload `α`, the
distinguished `LXDNotFoundException`, or any other transport error. -/
inductive LxdResult (α : Type)
  | ok (a : α)
  | notFound
  | err
deriving DecidableEq, Repr

/-- A catalog backend (`mp::VMImageHost`), specified at its interface
boundary: which remotes it serves and its two lookup operations.
`info_for_full_hash` throws on failure, hence `Except`. -/
structure ImageHost where
  supported_remotes : List String
  info_for : Query → Option VMImageInfo
  info_for_full_hash : String → Except Unit VMImageInfo

/-- Construction-time data of `LXDVMImageVault` plus the platform
capability predicates it consults (`mp::platform`). `days_to_expire`
is in days. -/
structure VaultConfig where
  image_hosts : List ImageHost
  days_to_expire : Nat
  base_url : String
  is_remote_supported : String → Bool
  is_image_url_supported : Bool

/-! ## Progress-percent parsing

`parse_percent_as_int` matches `QRegularExpression "\s(\d{1,3})%"`
against the progress string and returns capture 1 as an int, or -1 when
there is no match.  The regex engine scans start positions left to
right; at each position `\s` must match one whitespace character and
`\d{1,3}` is greedy with backtracking before the literal `%`. -/

/-- PCRE `\s` (default/ASCII): space, tab, newline, vertical tab, form
feed, carriage return. -/
def isRegexSpace (c : Char) : Bool :=
  c = ' ' || c = '\t' || c = '\n' || c = '\x0b' || c = '\x0c' || c = '\r'

/-- ASCII digit test, PCRE `\d`. -/
def isDigitChar (c : Char) : Bool :=
  '0' ≤ c && c ≤ '9'

/-- Numeric value of a digit character. -/
def digitVal (c : Char) : Int :=
  (c.toNat : Int) - ('0'.toNat : Int)

/-- Attempt of `(\d{1,3})%` at the position just after the matched
whitespace, with the greedy backtracking order of the regex engine
(3 digits first, then 2, then 1). Returns the captured value. -/
def tryPercentMatch : List Char → Option Int
  | c1 :: rest1 =>
    if isDigitChar c1 then
      match rest1 with
      | c2 :: rest2 =>
        if isDigitChar c2 then
          match rest2 with
          | c3 :: rest3 =>
            if isDigitChar c3 then
              match rest3 with
              | '%' :: _ => some (100 * digitVal c1 + 10 * digitVal c2 + digitVal c3)
              | _ => none
            else if c3 = '%' then some (10 * digitVal c1 + digitVal c2)
            else none
          | [] => none
        else if c2 = '%' then some (digitVal c1)
        else none
      | [] => none
    else none
  | [] => none

/-- Left-to-right scan of start positions: the first position whose
character matches `\s` and where `(\d{1,3})%` then matches yields the
result. -/
def percentScan : List Char → Int
  | [] => -1
  | c :: rest =>
    if isRegexSpace c then
      match tryPercentMatch rest with
      | some v => v
      | none => percentScan rest
    else percentScan rest

/-- Embeds `parse_percent_as_int` from the anonymous namespace of
`lxd_vm_image_vault.cpp`. -/
def parse_percent_as_int (progress_string : String) : Int :=
  percentScan progress_string.data

/-! Spec-side description of the same parser, written from the spec's
words for the refinement claim C7: "the first occurrence of a 1–3 digit
number immediately followed by '%' and immediately preceded by a
whitespace character, converted to an integer; no such match yields
-1". -/

/-- Spec reading: does a `k`-digit number sit at the head of `l`,
immediately followed by `'%'`? Returns its value. -/
def specDigitsThenPercent (l : List Char) (k : Nat) : Option Int :=
  if (l.take k).length = k ∧ (l.take k).all isDigitChar ∧ (l.drop k).head? = some '%' then
    some ((l.take k).foldl (fun acc c => 10 * acc + digitVal c) 0)
  else none

/-- Spec reading: a 1–3 digit number immediately followed by `'%'` at
the head of `l` (the position just after a whitespace character). -/
def specPercentAt (l : List Char) : Option Int :=
  (specDigitsThenPercent l 1).orElse fun _ =>
    (specDigitsThenPercent l 2).orElse fun _ =>
      specDigitsThenPercent l 3

/-- Spec reading of the whole parser: the first (leftmost) occurrence of
a whitespace character directly followed by a 1–3 digit number and
`'%'`; absence of any such occurrence yields -1. -/
def specPercentScan : List Char → Int
  | [] => -1
  | c :: rest =>
    if isRegexSpace c then
      match specPercentAt rest with
      | some v => v
      | none => specPercentScan rest
    else specPercentScan rest

/-- Spec-side parser on strings. -/
def spec_parse_percent (progress_string : String) : Int :=
  specPercentScan progress_string.data

/-! ## Requests and the event trace -/

/-- The JSON `source` object the vault builds for `POST /images`
(`QJsonObject source_object` in `fetch_image`).  Exactly one of
`fingerprint` / `alias` is inserted by the code. -/
structure SourceSpec where
  type : String
  mode : String
  server : String
  protocol : String
  image_type : String
  fingerprint : Option String
  alias_name : Option String
deriving DecidableEq, Repr

/-- Every HTTP request the vault issues, by endpoint. -/
inductive LxdCall
  | getInstance (name : String)
  | getImage (id : String)
  | postImages (source : SourceSpec)
  | getImages
  | postRefresh (id : String)
  | getOperation (op_id : String)
  | deleteOperation (op_id : String)
  | deleteInstance (name : String)
  | deleteImage (fingerprint : String)
deriving DecidableEq, Repr

/-- The URL the code builds for each request (note `virtual_machines`
with an underscore in `fetch_image` but `virtual-machines` with a
hyphen in `remove`/`has_record_for`, as in the source). -/
def LxdCall.url (base : String) : LxdCall → String
  | .getInstance n => base ++ "/virtual_machines/" ++ n
  | .getImage i => base ++ "/images/" ++ i
  | .postImages _ => base ++ "/images"
  | .getImages => base ++ "/images"
  | .postRefresh i => base ++ "/images/" ++ i ++ "/refresh"
  | .getOperation o => base ++ "/operations/" ++ o
  | .deleteOperation o => base ++ "/operations/" ++ o
  | .deleteInstance n => base ++ "/virtual-machines/" ++ n
  | .deleteImage f => base ++ "/images/" ++ f

/-- Observable events: requests issued, log lines (identified by the
instance/release they mention), progress-monitor invocations and
completion-callback invocations. -/
inductive Event
  | call (c : LxdCall)
  | logWarning (about : String)
  | logInfo (about : String)
  | monitorCalled (progress : Int)
  | taskCompleteCalled (refreshed : Bool)
deriving DecidableEq, Repr

/-- Is this event an image-pull request? -/
def isPullEvent : Event → Bool
  | .call (.postImages _) => true
  | _ => false

/-- Count of image-pull requests (`POST /images`) in a trace. -/
def pullCount (events : List Event) : Nat :=
  events.countP isPullEvent

/-! ## Remote-name map and `info_for` (claim C2) -/

/-- Embeds `std::map::operator[]` assignment: replace the value when the key
is present, append otherwise. -/
def assocInsert : List (String × ImageHost) → String → ImageHost → List (String × ImageHost)
  | [], k, v => [(k, v)]
  | p :: rest, k, v => if p.1 = k then (k, v) :: rest else p :: assocInsert rest k v

/-- Embeds `std::map::find`. -/
def assocFind (m : List (String × ImageHost)) (k : String) : Option ImageHost :=
  (m.find? fun p => p.1 = k).map (·.2)

/-- The `remote_image_host_map` built by the `LXDVMImageVault`
constructor: for each host in order, for each of its supported remotes,
insert it when the platform supports that remote. -/
def remote_image_host_map (cfg : VaultConfig) : List (String × ImageHost) :=
  cfg.image_hosts.foldl
    (fun m image_host =>
      image_host.supported_remotes.foldl
        (fun m remote =>
          if cfg.is_remote_supported remote then assocInsert m remote image_host else m)
        m)
    []

/-- Errors the vault can raise, by the throw sites of the source. -/
inductive VaultError
  | unknownRemote (name : String)
  | notFound (release : String)
  | imageNotSupported
  | abortedDownload
  | lxdNotFound
  | transport
deriving DecidableEq, Repr

/-- Embeds `LXDVMImageVault::info_for`: resolve a query to catalog metadata,
or throw. -/
def info_for (cfg : VaultConfig) (query : Query) : Except VaultError VMImageInfo :=
  if query.remote_name ≠ "" then
    match assocFind (remote_image_host_map cfg) query.remote_name with
    | none => .error (.unknownRemote query.remote_name)
    | some image_host =>
      match image_host.info_for query with
      | some info => .ok info
      | none => .error (.notFound query.release)
  else
    match cfg.image_hosts.findSome? (fun image_host => image_host.info_for query) with
    | some info => .ok info
    | none => .error (.notFound query.release)

/-! ## Operation polling (`poll_download_operation`, claims C3/C4)

The loop issues `GET` on the operation resource until an exit
transition fires.  We model the daemon's successive replies as a finite
list; running off its end (`exhausted`) stands for a loop that would
still be polling. -/

/-- One reply to a `GET` on the operation resource: the fields the loop
reads (`error_code`, `metadata.status_code`,
`metadata.metadata.download_progress`, `metadata.refreshed`), the
distinguished not-found error, or another transport error. -/
inductive PollReply
  | reply (error_code : Int) (status_code : Int) (download_progress : String) (refreshed : Bool)
  | notFound
  | err
deriving DecidableEq, Repr

/-- The initial reply to `POST /images` / `POST /images/{id}/refresh`:
the fields `poll_download_operation` inspects before deciding to poll. -/
structure OpReply where
  is_task_class : Bool
  status_code : Int
  op_id : String
deriving DecidableEq, Repr

/-- Exit transition of the polling loop. -/
inductive PollOutcome
  | skipped
  | success (refreshed : Bool)
  | errorCode
  | vanished
  | aborted
  | transportErr
  | exhausted
deriving DecidableEq, Repr

/-- Environment of one polling loop: the daemon's successive replies to
the operation `GET`s, and its reply to the cancellation `DELETE`
(should the loop issue one). -/
structure PollEnv where
  replies : List PollReply
  delete_result : LxdResult Unit
deriving Repr

/-- The `while (true)` body of `poll_download_operation`, one list
element per iteration.  The monitor receives the iteration index and
the parsed progress; `false` aborts.  On abort the code first issues
`DELETE` on the operation: if that request itself raises the not-found
error the surrounding `catch` breaks the loop normally (`vanished`),
and a transport error from it propagates instead of the abort. -/
def pollLoop (op_id : String) (monitor : Nat → Int → Bool)
    (delete_result : LxdResult Unit) :
    List PollReply → Nat → List Event × PollOutcome
  | [], _ => ([], .exhausted)
  | r :: rest, n =>
    let get_event := Event.call (.getOperation op_id)
    match r with
    | .err => ([get_event], .transportErr)
    | .notFound => ([get_event], .vanished)
    | .reply error_code status_code progress refreshed =>
      if error_code ≠ 0 then ([get_event], .errorCode)
      else if status_code = 200 then
        ([get_event, .taskCompleteCalled refreshed], .success refreshed)
      else
        let p := parse_percent_as_int progress
        if monitor n p then
          let (events, outcome) := pollLoop op_id monitor delete_result rest (n + 1)
          (get_event :: .monitorCalled p :: events, outcome)
        else
          match delete_result with
          | .ok _ =>
            ([get_event, .monitorCalled p, .call (.deleteOperation op_id)], .aborted)
          | .notFound =>
            ([get_event, .monitorCalled p, .call (.deleteOperation op_id)], .vanished)
          | .err =>
            ([get_event, .monitorCalled p, .call (.deleteOperation op_id)], .transportErr)

/-- Embeds `LXDVMImageVault::poll_download_operation`: polling applies only to
a deferred task reply (`metadata.class == "task"` and
`status_code == 100`); synchronous replies skip the loop. -/
def poll_download_operation (monitor : Nat → Int → Bool) (env : PollEnv)
    (json_reply : OpReply) : List Event × PollOutcome :=
  if json_reply.is_task_class ∧ json_reply.status_code = 100 then
    pollLoop json_reply.op_id monitor env.delete_result env.replies 0
  else ([], .skipped)

/-- How each exit transition surfaces to the caller: only the abort
path raises `AbortedDownloadError`; a transport error propagates; every
other exit returns normally. -/
def outcomeResult : PollOutcome → Except VaultError Unit
  | .aborted => .error .abortedDownload
  | .transportErr => .error .transport
  | _ => .ok ()

/-- Whether the pull operation genuinely completed on the remote side,
so that the image is afterwards present there (`success`), including
the accepted quirk that the operation resource vanishing counts as
completion (`vanished`). -/
def outcomeCompletes : PollOutcome → Bool
  | .success _ => true
  | .vanished => true
  | _ => false

/-! ## Fetching (`fetch_image`; claims C1, C5, C9, C10) -/

/-- Build the `VMImage source_image` that `fetch_image` populates from
catalog metadata; the path fields keep their default empty values. -/
def mkSourceImage (info : VMImageInfo) : VMImage :=
  { id := info.id
    stream_location := info.stream_location
    original_release := info.release_title
    release_date := info.version
    aliases := info.aliases }

/-- The best-effort block at the top of `fetch_image`: probe the
existing instance, read `volatile.base_image`, and look that id up in
every host; each per-host failure is swallowed, each per-host
`VMImage` is local to the loop body, and the whole block's value is
discarded by the caller (the outer `catch` swallows a failed probe). -/
def recover_base_image (hosts : List ImageHost) (instance_probe : LxdResult String) :
    List (Option VMImage) :=
  match instance_probe with
  | .ok id =>
    hosts.map fun image_host =>
      match image_host.info_for_full_hash id with
      | .ok info => some { mkSourceImage info with id := id }
      | .error _ => none
  | .notFound => []
  | .err => []

/-- Embeds `QString::startsWith`: is `p` a prefix of `s`? -/
def startsWith (s p : String) : Bool :=
  p.data.isPrefixOf s.data

/-- The `source` JSON object built under the not-found branch of the
image probe: fixed pull descriptor fields plus a `fingerprint` when the
id starts with the requested release, an `alias` otherwise. -/
def make_source_spec (info : VMImageInfo) (release : String) : SourceSpec :=
  { type := "image"
    mode := "pull"
    server := info.stream_location
    protocol := "simplestreams"
    image_type := "virtual-machine"
    fingerprint := if startsWith info.id release then some info.id else none
    alias_name := if startsWith info.id release then none else some release }

/-- Environment of one `fetch_image` call: the daemon's reply to the
instance probe, its reply to `POST /images`, and the polling
environment. The image probe (`GET /images/{id}`) is answered from the
remote image store, modelled as the list of fingerprints present. -/
structure FetchEnv where
  instance_probe : LxdResult String
  post_reply : OpReply
  poll : PollEnv
deriving Repr

/-- Result of one `fetch_image` call: value or error, the event trace,
the remote image store afterwards, and the polling exit transition
(`none` when no pull was needed or the call failed earlier). -/
structure FetchResult where
  result : Except VaultError VMImage
  events : List Event
  images_present : List String
  poll_outcome : Option PollOutcome
deriving Repr

/-- Embeds `LXDVMImageVault::fetch_image` over remote image store `st`. -/
def fetch_image (cfg : VaultConfig) (env : FetchEnv) (query : Query)
    (monitor : Nat → Int → Bool) (st : List String) : FetchResult :=
  let probe_events := [Event.call (.getInstance query.name)]
  let _best_effort := recover_base_image cfg.image_hosts env.instance_probe
  if query.query_type ≠ .Alias ∧ ¬cfg.is_image_url_supported then
    { result := .error .imageNotSupported, events := probe_events
      images_present := st, poll_outcome := none }
  else
    match info_for cfg query with
    | .error e =>
      { result := .error e, events := probe_events
        images_present := st, poll_outcome := none }
    | .ok info =>
      let source_image := mkSourceImage info
      let probe2 := probe_events ++ [Event.call (.getImage info.id)]
      if info.id ∈ st then
        { result := .ok source_image, events := probe2
          images_present := st, poll_outcome := none }
      else
        let source := make_source_spec info query.release
        let (poll_events, outcome) := poll_download_operation monitor env.poll env.post_reply
        let events := probe2 ++ [Event.call (.postImages source)] ++ poll_events
        match outcomeResult outcome with
        | .error e =>
          { result := .error e, events := events
            images_present := st, poll_outcome := some outcome }
        | .ok _ =>
          { result := .ok source_image, events := events
            images_present := if outcomeCompletes outcome then info.id :: st else st
            poll_outcome := some outcome }

/-! ## Removal, pruning and refresh (claims C6, C8, C9) -/

/-- Embeds `LXDVMImageVault::remove`: `DELETE` the instance record; the
not-found error is caught and logged as a warning, anything else
propagates. -/
def remove (name : String) (delete_result : LxdResult Unit) :
    Except VaultError Unit × List Event :=
  let delete_event := Event.call (.deleteInstance name)
  match delete_result with
  | .ok _ => (.ok (), [delete_event])
  | .notFound => (.ok (), [delete_event, .logWarning name])
  | .err => (.error .transport, [delete_event])

/-- One remote image record as listed by `GET /images`: the fields
`prune_expired_images`/`update_images` read. `last_used_msecs` is the
parsed `last_used_at` in milliseconds since the epoch; `update_source`
presence marks a tracked image. -/
structure RemoteImage where
  fingerprint : String
  release : String
  has_update_source : Bool
  last_used_msecs : Int
deriving DecidableEq, Repr

/-- Converts `days_to_expire` to a millisecond count (std::chrono days added to
a msec-resolution time point). -/
def expiryMsecs (cfg : VaultConfig) : Int :=
  (cfg.days_to_expire : Int) * 86400000

/-- Embeds `LXDVMImageVault::prune_expired_images` at current time
`now_msecs`: list the images, and delete each tracked one whose
`last_used_at + days_to_expire` is not after now. -/
def prune_expired_images (cfg : VaultConfig) (images : List RemoteImage)
    (now_msecs : Int) : List Event :=
  Event.call .getImages ::
    images.foldr
      (fun image_info acc =>
        (if image_info.has_update_source ∧
            image_info.last_used_msecs + expiryMsecs cfg ≤ now_msecs then
          [Event.logInfo image_info.release, Event.call (.deleteImage image_info.fingerprint)]
        else []) ++ acc)
      []

/-- Environment of one `update_images` call: per-fingerprint reply to
the refresh `POST` and per-fingerprint polling environment. -/
structure UpdateEnv where
  refresh_reply : String → LxdResult OpReply
  poll : String → PollEnv

/-- Body of the `update_images` loop for one listed image: tracked
images get a refresh `POST` and a poll; errors other than the poll
loop's own caught ones propagate immediately. -/
def update_one (env : UpdateEnv) (monitor : Nat → Int → Bool) (image_info : RemoteImage) :
    Except VaultError Unit × List Event :=
  if image_info.has_update_source then
    let head_events := [Event.logInfo image_info.release,
      Event.call (.postRefresh image_info.fingerprint)]
    match env.refresh_reply image_info.fingerprint with
    | .err => (.error .transport, head_events)
    | .notFound => (.error .lxdNotFound, head_events)
    | .ok json_reply =>
      let (poll_events, outcome) :=
        poll_download_operation monitor (env.poll image_info.fingerprint) json_reply
      (outcomeResult outcome, head_events ++ poll_events)
  else (.ok (), [])

/-- The `update_images` loop over the listed images; the first
propagating error aborts the remaining iterations. -/
def updateGo (env : UpdateEnv) (monitor : Nat → Int → Bool) :
    List RemoteImage → Except VaultError Unit × List Event
  | [] => (.ok (), [])
  | image_info :: rest =>
    let (r, events) := update_one env monitor image_info
    match r with
    | .error e => (.error e, events)
    | .ok _ =>
      let (r2, events2) := updateGo env monitor rest
      (r2, events ++ events2)

/-- Embeds `LXDVMImageVault::update_images`: list the images, then refresh
each tracked one in turn. -/
def update_images (env : UpdateEnv) (monitor : Nat → Int → Bool)
    (images : List RemoteImage) : Except VaultError Unit × List Event :=
  let (r, events) := updateGo env monitor images
  (r, Event.call .getImages :: events)

/-! ## Concrete instances used by witnesses -/

/-- A concrete catalog record. -/
def testInfo : VMImageInfo :=
  { id := "ab1234"
    aliases := ["jammy", "lts"]
    release_title := "22.04 LTS"
    version := "20240101"
    stream_location := "https://cloud-images.ubuntu.com/releases" }

/-- A concrete catalog backend serving remote `release`. -/
def testHost : ImageHost :=
  { supported_remotes := ["release"]
    info_for := fun q => if q.release = "jammy" then some testInfo else none
    info_for_full_hash := fun h => if h = "ab1234" then .ok testInfo else .error () }

/-- A concrete vault configuration over `testHost`. -/
def testCfg : VaultConfig :=
  { image_hosts := [testHost]
    days_to_expire := 14
    base_url := "https://multipass/1.0"
    is_remote_supported := fun r => r = "release"
    is_image_url_supported := false }

/-- A concrete alias query. -/
def testQuery : Query :=
  { name := "foo", release := "jammy", remote_name := "", query_type := .Alias }

/-- A concrete tracked remote image. -/
def testImage : RemoteImage :=
  { fingerprint := "ab1234", release := "jammy", has_update_source := true,
    last_used_msecs := 0 }

/-- Variant of `testCfg` with immediate expiry. -/
def testCfg0 : VaultConfig :=
  { testCfg with days_to_expire := 0 }

/-- A concrete always-abort monitor environment for C3's witness. -/
def testPollEnvAbort : PollEnv :=
  { replies := [.reply 0 103 "Downloading  42% done" false], delete_result := .ok () }

/-- A concrete deferred-task reply. -/
def testOpReply : OpReply :=
  { is_task_class := true, status_code := 100, op_id := "op1" }

/-- A fetch environment whose pull operation reports a nonzero
`error_code` on the first poll. -/
def testFetchEnvErr : FetchEnv :=
  { instance_probe := .notFound
    post_reply := testOpReply
    poll := { replies := [.reply 2 0 "" false], delete_result := .ok () } }

/-- A fetch environment whose pull completes successfully on the first
poll. -/
def testFetchEnvOk : FetchEnv :=
  { instance_probe := .notFound
    post_reply := testOpReply
    poll := { replies := [.reply 0 200 "done" false], delete_result := .ok () } }

/-- Agreement of two catalog backends on everything except
`info_for_full_hash` (the operation used only by the discarded
best-effort block). -/
def hostsAgree (h h2 : ImageHost) : Prop :=
  h.supported_remotes = h2.supported_remotes ∧ h.info_for = h2.info_for

/-- Agreement of two map entries. -/
def entryAgree (p p2 : String × ImageHost) : Prop :=
  p.1 = p2.1 ∧ hostsAgree p.2 p2.2

/-- A second concrete tracked remote image. -/
def testImage2 : RemoteImage :=
  { fingerprint := "cd5678", release := "noble", has_update_source := true,
    last_used_msecs := 0 }

/-- An update environment whose refresh `POST` fails with a transport
error for the first image and would succeed for the second. -/
def testUpdateEnvErr : UpdateEnv :=
  { refresh_reply := fun f => if f = "ab1234" then .err else .ok testOpReply
    poll := fun _ => { replies := [.reply 0 200 "done" false], delete_result := .ok () } }

/-! ## Theorems -/

/-- The percent sign is not a digit (used to discharge the overlap
branches of the backtracking analysis). -/
theorem percent_not_digit : isDigitChar '%' = false := by decide

/-- The greedy backtracking attempt of `(\d{1,3})%` agrees with the
spec's description of a 1–3 digit number immediately followed by `%`. -/
theorem tryPercentMatch_eq_specPercentAt (l : List Char) :
    tryPercentMatch l = specPercentAt l := by
  rcases l with _ | ⟨c1, _ | ⟨c2, _ | ⟨c3, _ | ⟨c4, rest⟩⟩⟩⟩ <;>
    simp only [tryPercentMatch, specPercentAt, specDigitsThenPercent, List.take, List.drop,
      List.all_cons, List.all_nil, List.head?, List.length, List.foldl, Option.orElse,
      List.length_nil, List.length_cons, Option.none_orElse] <;>
    split_ifs <;>
    simp_all [percent_not_digit] <;>
    omega

/-- The left-to-right scans agree position by position. -/
theorem percentScan_eq_specPercentScan (l : List Char) :
    percentScan l = specPercentScan l := by
  induction l with
  | nil => rfl
  | cons c rest ih =>
    simp only [percentScan, specPercentScan, tryPercentMatch_eq_specPercentAt]
    split_ifs with hs
    · cases specPercentAt rest <;> simp [ih]
    · exact ih

/-- C7 — Progress parsing: for every progress string, the parsed
percentage is the first occurrence of a 1–3 digit number immediately
followed by `%` and immediately preceded by a whitespace character,
converted to an integer; for every string containing no such match
(including a percentage at the very start of the string, with no
preceding whitespace) the result is -1. -/
theorem parse_percent_as_int_correct :
    (∀ s, parse_percent_as_int s = spec_parse_percent s) ∧
    parse_percent_as_int "Downloading  42% complete" = 42 ∧
    parse_percent_as_int "42% complete" = -1 ∧
    parse_percent_as_int "" = -1 := by
  refine ⟨fun s => percentScan_eq_specPercentScan s.data, by decide, by decide, by decide⟩

/-- C8 — Idempotent removal: `remove(name)` issues a `DELETE` for the
remote instance record (at `{base}/virtual-machines/{name}`) and, when
the remote reports not-found, returns normally after logging a warning,
so removal of a non-existent name is a successful no-op. -/
theorem remove_idempotent (name base : String) :
    remove name .notFound =
      (.ok (), [.call (.deleteInstance name), .logWarning name]) ∧
    (∀ delete_result,
      (remove name delete_result).2.head? = some (.call (.deleteInstance name))) ∧
    (LxdCall.deleteInstance name).url base = base ++ "/virtual-machines/" ++ name := by
  refine ⟨rfl, fun delete_result => ?_, rfl⟩
  cases delete_result <;> rfl

/-- Membership in the foldr-with-append accumulation pattern used by
the pruning loop. -/
theorem mem_foldr_append {α β : Type} (f : α → List β) (l : List α) (x : β) :
    x ∈ l.foldr (fun a acc => f a ++ acc) [] ↔ ∃ a ∈ l, x ∈ f a := by
  induction l with
  | nil => simp
  | cons a rest ih => simp [ih]

/-- C6 — Expiry pruning: `prune_expired_images` deletes a remote image
iff its record carries `update_source` and its parsed `last_used_at`
plus `days_to_expire` is not after now; with `days_to_expire = 0` a
tracked image (last used no later than now) is always eligible, with
`days_to_expire = 1` and `last_used` = now it is left intact, and an
image without `update_source` is never deleted regardless of age. -/
theorem prune_expired_images_correct (cfg : VaultConfig) (images : List RemoteImage)
    (now_msecs : Int) (f : String) :
    (Event.call (.deleteImage f) ∈ prune_expired_images cfg images now_msecs ↔
      ∃ image_info ∈ images, image_info.fingerprint = f ∧
        image_info.has_update_source = true ∧
        image_info.last_used_msecs + expiryMsecs cfg ≤ now_msecs) ∧
    (∀ image_info, cfg.days_to_expire = 0 → image_info.has_update_source = true →
      image_info.last_used_msecs ≤ now_msecs →
      Event.call (.deleteImage image_info.fingerprint) ∈
        prune_expired_images cfg [image_info] now_msecs) ∧
    (∀ image_info, cfg.days_to_expire = 1 → image_info.last_used_msecs = now_msecs →
      Event.call (.deleteImage image_info.fingerprint) ∉
        prune_expired_images cfg [image_info] now_msecs) ∧
    (∀ image_info, image_info.has_update_source = false →
      Event.call (.deleteImage image_info.fingerprint) ∉
        prune_expired_images cfg [image_info] now_msecs) := by
  have key : ∀ (g : String) (imgs : List RemoteImage),
      (Event.call (.deleteImage g) ∈ prune_expired_images cfg imgs now_msecs ↔
        ∃ image_info ∈ imgs, image_info.fingerprint = g ∧
          image_info.has_update_source = true ∧
          image_info.last_used_msecs + expiryMsecs cfg ≤ now_msecs) := by
    intro g imgs
    unfold prune_expired_images
    rw [List.mem_cons, mem_foldr_append]
    constructor
    · rintro (h | ⟨a, ha, hx⟩)
      · simp at h
      · by_cases hc : a.has_update_source = true ∧
            a.last_used_msecs + expiryMsecs cfg ≤ now_msecs
        · rw [if_pos hc] at hx
          simp only [List.mem_cons, List.not_mem_nil, or_false] at hx
          rcases hx with hx | hx
          · simp at hx
          · simp only [Event.call.injEq, LxdCall.deleteImage.injEq] at hx
            exact ⟨a, ha, hx.symm, hc.1, hc.2⟩
        · rw [if_neg hc] at hx
          simp at hx
    · rintro ⟨a, ha, hfp, htrack, hexp⟩
      refine Or.inr ⟨a, ha, ?_⟩
      rw [if_pos ⟨htrack, hexp⟩, hfp]
      simp
  refine ⟨key f images, ?_, ?_, ?_⟩
  · intro image_info hdays htrack hlast
    refine (key image_info.fingerprint [image_info]).mpr
      ⟨image_info, by simp, rfl, htrack, ?_⟩
    unfold expiryMsecs
    rw [hdays]
    omega
  · intro image_info hdays hlast hmem
    rcases (key image_info.fingerprint [image_info]).mp hmem with ⟨a, ha, _, _, hexp⟩
    simp at ha
    subst ha
    rw [hlast] at hexp
    unfold expiryMsecs at hexp
    rw [hdays] at hexp
    omega
  · intro image_info htrack hmem
    rcases (key image_info.fingerprint [image_info]).mp hmem with ⟨a, ha, _, htr, _⟩
    simp at ha
    subst ha
    rw [htrack] at htr
    exact absurd htr (by decide)

/-- Witness for C6 at a concrete tracked, expired image. -/
theorem prune_expired_images_correct_witness :
    Event.call (.deleteImage "ab1234") ∈ prune_expired_images testCfg0 [testImage] 5 :=
  (prune_expired_images_correct testCfg0 [testImage] 5 "ab1234").2.1 testImage rfl rfl
    (by decide)

/-- Only the abort transition surfaces as `AbortedDownloadError`. -/
theorem outcomeResult_aborted_iff (outcome : PollOutcome) :
    outcomeResult outcome = .error .abortedDownload ↔ outcome = .aborted := by
  cases outcome <;> simp [outcomeResult]

/-- An aborted polling loop ends its trace with the cancellation
`DELETE`, and only a `false` answer from the monitor aborts it. -/
theorem pollLoop_aborted (op_id : String) (m : Nat → Int → Bool)
    (dr : LxdResult Unit) (replies : List PollReply) (n : Nat) :
    (pollLoop op_id m dr replies n).2 = .aborted →
      (pollLoop op_id m dr replies n).1.getLast? =
        some (.call (.deleteOperation op_id)) ∧
      ∃ i p, m i p = false := by
  induction replies generalizing n with
  | nil => intro h; simp [pollLoop] at h
  | cons r rest ih =>
    intro h
    match r with
    | .err => simp [pollLoop] at h
    | .notFound => simp [pollLoop] at h
    | .reply error_code status_code progress refreshed =>
      by_cases hec : error_code ≠ 0
      · rw [pollLoop, if_pos hec] at h
        simp at h
      · by_cases hsc : status_code = 200
        · rw [pollLoop, if_neg hec, if_pos hsc] at h
          simp at h
        · by_cases hm : m n (parse_percent_as_int progress) = true
          · rw [pollLoop, if_neg hec, if_neg hsc, if_pos hm] at h ⊢
            have h' : (pollLoop op_id m dr rest (n + 1)).2 = .aborted := by
              revert h
              rcases pollLoop op_id m dr rest (n + 1) with ⟨events, outcome⟩
              intro h
              exact h
            obtain ⟨hlast, hmf⟩ := ih (n + 1) h'
            refine ⟨?_, hmf⟩
            rcases he : pollLoop op_id m dr rest (n + 1) with ⟨events, outcome⟩
            rw [he] at hlast
            have hne : events ≠ [] := by
              intro hnil
              rw [hnil] at hlast
              simp at hlast
            rcases events with _ | ⟨e0, es⟩
            · exact absurd rfl hne
            · simpa using hlast
          · rw [pollLoop, if_neg hec, if_neg hsc, if_neg hm] at h ⊢
            rcases dr with _ | _ | _
            · exact ⟨rfl, n, parse_percent_as_int progress,
                by simpa using hm⟩
            · simp at h
            · simp at h

/-- C3 — Cancellation during polling: an abort answer from the monitor
makes the loop issue `DELETE` on the operation resource (the last event
of the trace) and fail with `AbortedDownloadError`; this monitor signal
is the only path to `AbortedDownloadError` from the polling loop. -/
theorem polling_cancellation (m : Nat → Int → Bool) (env : PollEnv) (rep : OpReply) :
    (outcomeResult (poll_download_operation m env rep).2 = .error .abortedDownload ↔
      (poll_download_operation m env rep).2 = .aborted) ∧
    ((poll_download_operation m env rep).2 = .aborted →
      (poll_download_operation m env rep).1.getLast? =
        some (.call (.deleteOperation rep.op_id)) ∧
      ∃ i p, m i p = false) ∧
    (∀ ec sc prog rf rest n, env.delete_result = .ok () → ec = 0 → sc ≠ 200 →
      m n (parse_percent_as_int prog) = false →
      pollLoop rep.op_id m env.delete_result (.reply ec sc prog rf :: rest) n =
        ([.call (.getOperation rep.op_id), .monitorCalled (parse_percent_as_int prog),
          .call (.deleteOperation rep.op_id)], .aborted)) := by
  refine ⟨outcomeResult_aborted_iff _, ?_, ?_⟩
  · intro h
    unfold poll_download_operation at h ⊢
    split_ifs at h ⊢ with hc
    exact pollLoop_aborted rep.op_id m env.delete_result env.replies 0 h
  · intro ec sc prog rf rest n hdr hec hsc hm
    subst hec
    simp [pollLoop, hsc, hm, hdr]

/-- Witness for C3: with a monitor that aborts at once, the loop ends
in the abort transition, its trace ends with the cancellation `DELETE`,
and the monitor indeed said no. -/
theorem polling_cancellation_witness :
    (poll_download_operation (fun _ _ => false) testPollEnvAbort testOpReply).1.getLast? =
      some (.call (.deleteOperation "op1")) ∧
    ∃ i p, (fun (_ : Nat) (_ : Int) => false) i p = false := by
  have h := polling_cancellation (fun _ _ => false) testPollEnvAbort testOpReply
  have habort : (poll_download_operation (fun _ _ => false) testPollEnvAbort testOpReply).2 =
      .aborted := by decide
  exact h.2.1 habort

/-! ### Branch characterizations of `fetch_image` -/

/-- Non-alias queries are rejected up front when the platform does not
support image URLs. -/
theorem fetch_image_reject (cfg : VaultConfig) (env : FetchEnv) (query : Query)
    (m : Nat → Int → Bool) (st : List String)
    (h1 : query.query_type ≠ .Alias) (h2 : cfg.is_image_url_supported = false) :
    fetch_image cfg env query m st =
      { result := .error .imageNotSupported,
        events := [.call (.getInstance query.name)],
        images_present := st, poll_outcome := none } := by
  simp [fetch_image, h1, h2]

/-- Resolution failures propagate unchanged. -/
theorem fetch_image_resolve_error (cfg : VaultConfig) (env : FetchEnv) (query : Query)
    (m : Nat → Int → Bool) (st : List String) (e : VaultError)
    (htype : query.query_type = .Alias ∨ cfg.is_image_url_supported = true)
    (hinfo : info_for cfg query = .error e) :
    fetch_image cfg env query m st =
      { result := .error e, events := [.call (.getInstance query.name)],
        images_present := st, poll_outcome := none } := by
  have hcond : ¬(query.query_type ≠ .Alias ∧ ¬cfg.is_image_url_supported) := by
    rcases htype with h | h <;> simp [h]
  simp only [fetch_image, hinfo]
  rw [if_neg hcond]

/-- When the remote already holds the resolved image, the probe is the
last request and the catalog-built image is returned. -/
theorem fetch_image_hit (cfg : VaultConfig) (env : FetchEnv) (query : Query)
    (m : Nat → Int → Bool) (st : List String) (info : VMImageInfo)
    (htype : query.query_type = .Alias ∨ cfg.is_image_url_supported = true)
    (hinfo : info_for cfg query = .ok info) (hmem : info.id ∈ st) :
    fetch_image cfg env query m st =
      { result := .ok (mkSourceImage info),
        events := [.call (.getInstance query.name), .call (.getImage info.id)],
        images_present := st, poll_outcome := none } := by
  have hcond : ¬(query.query_type ≠ .Alias ∧ ¬cfg.is_image_url_supported) := by
    rcases htype with h | h <;> simp [h]
  simp only [fetch_image, hinfo]
  rw [if_neg hcond, if_pos hmem]
  simp

/-- When the remote reports not-found for the resolved image, a pull is
posted and polled; the outcome decides the result and the store. -/
theorem fetch_image_miss (cfg : VaultConfig) (env : FetchEnv) (query : Query)
    (m : Nat → Int → Bool) (st : List String) (info : VMImageInfo)
    (poll_events : List Event) (outcome : PollOutcome)
    (htype : query.query_type = .Alias ∨ cfg.is_image_url_supported = true)
    (hinfo : info_for cfg query = .ok info) (hmem : info.id ∉ st)
    (hpoll : poll_download_operation m env.poll env.post_reply = (poll_events, outcome)) :
    fetch_image cfg env query m st =
      { result := match outcomeResult outcome with
          | .error e => .error e
          | .ok _ => .ok (mkSourceImage info),
        events := [.call (.getInstance query.name), .call (.getImage info.id),
          .call (.postImages (make_source_spec info query.release))] ++ poll_events,
        images_present := match outcomeResult outcome with
          | .error _ => st
          | .ok _ => if outcomeCompletes outcome then info.id :: st else st,
        poll_outcome := some outcome } := by
  have hcond : ¬(query.query_type ≠ .Alias ∧ ¬cfg.is_image_url_supported) := by
    rcases htype with h | h <;> simp [h]
  simp only [fetch_image, hinfo, hpoll]
  rw [if_neg hcond, if_neg hmem]
  rcases houtcome : outcomeResult outcome with e | u <;> simp [houtcome]

/-- The polling loop never issues an image-pull request. -/
theorem pollLoop_no_pull (op_id : String) (m : Nat → Int → Bool)
    (dr : LxdResult Unit) (replies : List PollReply) (n : Nat) :
    ∀ e ∈ (pollLoop op_id m dr replies n).1, ∀ sp, e ≠ .call (.postImages sp) := by
  induction replies generalizing n with
  | nil => intro e he; simp [pollLoop] at he
  | cons r rest ih =>
    intro e he sp
    match r with
    | .err => simp [pollLoop] at he; simp [he]
    | .notFound => simp [pollLoop] at he; simp [he]
    | .reply error_code status_code progress refreshed =>
      by_cases hec : error_code ≠ 0
      · rw [pollLoop, if_pos hec] at he
        simp at he; simp [he]
      · by_cases hsc : status_code = 200
        · rw [pollLoop, if_neg hec, if_pos hsc] at he
          simp at he
          rcases he with he | he <;> simp [he]
        · by_cases hm : m n (parse_percent_as_int progress) = true
          · rw [pollLoop, if_neg hec, if_neg hsc, if_pos hm] at he
            rcases hrec : pollLoop op_id m dr rest (n + 1) with ⟨events, outcome⟩
            rw [hrec] at he
            simp only [List.mem_cons] at he
            rcases he with he | he | he
            · simp [he]
            · simp [he]
            · have := ih (n + 1)
              rw [hrec] at this
              exact this e he sp
          · rw [pollLoop, if_neg hec, if_neg hsc, if_neg hm] at he
            rcases dr with _ | _ | _ <;>
              (simp at he; rcases he with he | he | he <;> simp [he])

/-- The `pullCount` of any polling trace is zero. -/
theorem pullCount_poll (m : Nat → Int → Bool) (env : PollEnv) (rep : OpReply) :
    pullCount (poll_download_operation m env rep).1 = 0 := by
  unfold pullCount
  rw [List.countP_eq_zero]
  intro e he
  unfold poll_download_operation at he
  split_ifs at he with hc
  · have hnp := pollLoop_no_pull rep.op_id m env.delete_result env.replies 0 e he
    cases e with
    | call c =>
      cases c with
      | postImages sp => exact absurd rfl (hnp sp)
      | getInstance n => exact fun hx => Bool.noConfusion hx
      | getImage i => exact fun hx => Bool.noConfusion hx
      | getImages => exact fun hx => Bool.noConfusion hx
      | postRefresh i => exact fun hx => Bool.noConfusion hx
      | getOperation o => exact fun hx => Bool.noConfusion hx
      | deleteOperation o => exact fun hx => Bool.noConfusion hx
      | deleteInstance n => exact fun hx => Bool.noConfusion hx
      | deleteImage f => exact fun hx => Bool.noConfusion hx
    | logWarning s => exact fun hx => Bool.noConfusion hx
    | logInfo s => exact fun hx => Bool.noConfusion hx
    | monitorCalled p => exact fun hx => Bool.noConfusion hx
    | taskCompleteCalled b => exact fun hx => Bool.noConfusion hx
  · simp at he

/-- Full inversion of a successful `fetch_image`: the query type was
acceptable, resolution succeeded, the returned image is built from the
resolved info, and the call either found the image remotely (no pull)
or pulled it with a normally-terminating poll. -/
theorem fetch_image_ok_cases (cfg : VaultConfig) (env : FetchEnv) (query : Query)
    (m : Nat → Int → Bool) (st : List String) (img : VMImage)
    (h : (fetch_image cfg env query m st).result = .ok img) :
    (query.query_type = .Alias ∨ cfg.is_image_url_supported = true) ∧
    ∃ info, info_for cfg query = .ok info ∧ img = mkSourceImage info ∧
      ((info.id ∈ st ∧
          fetch_image cfg env query m st =
            { result := .ok (mkSourceImage info),
              events := [.call (.getInstance query.name), .call (.getImage info.id)],
              images_present := st, poll_outcome := none }) ∨
       (info.id ∉ st ∧ ∃ poll_events outcome,
          poll_download_operation m env.poll env.post_reply = (poll_events, outcome) ∧
          outcomeResult outcome = .ok () ∧
          fetch_image cfg env query m st =
            { result := .ok (mkSourceImage info),
              events := [.call (.getInstance query.name), .call (.getImage info.id),
                .call (.postImages (make_source_spec info query.release))] ++ poll_events,
              images_present := if outcomeCompletes outcome then info.id :: st else st,
              poll_outcome := some outcome })) := by
  by_cases hcond : query.query_type ≠ .Alias ∧ ¬cfg.is_image_url_supported
  · rw [fetch_image_reject cfg env query m st hcond.1 (by simpa using hcond.2)] at h
    simp at h
  · have htype : query.query_type = .Alias ∨ cfg.is_image_url_supported = true := by
      by_cases ha : query.query_type = .Alias
      · exact Or.inl ha
      · right
        by_contra hb
        exact hcond ⟨ha, by simpa using hb⟩
    refine ⟨htype, ?_⟩
    cases hinfo : info_for cfg query with
    | error e =>
      rw [fetch_image_resolve_error cfg env query m st e htype hinfo] at h
      simp at h
    | ok info =>
      by_cases hmem : info.id ∈ st
      · have heq := fetch_image_hit cfg env query m st info htype hinfo hmem
        rw [heq] at h
        simp only [Except.ok.injEq] at h
        exact ⟨info, rfl, h.symm, Or.inl ⟨hmem, heq⟩⟩
      · rcases hpoll : poll_download_operation m env.poll env.post_reply with
          ⟨poll_events, outcome⟩
        have heq := fetch_image_miss cfg env query m st info poll_events outcome
          htype hinfo hmem hpoll
        rw [heq] at h
        cases hres : outcomeResult outcome with
        | error e => rw [hres] at h; simp at h
        | ok u =>
          rw [hres] at h
          simp only [Except.ok.injEq] at h
          refine ⟨info, rfl, h.symm, Or.inr ⟨hmem, poll_events, outcome, rfl, ?_, ?_⟩⟩
          · cases u; exact hres
          · rw [heq, hres]

/-- No event of a polling trace is an image-pull request. -/
theorem poll_events_no_pull (m : Nat → Int → Bool) (env : PollEnv) (rep : OpReply) :
    ∀ e ∈ (poll_download_operation m env rep).1, ∀ sp, e ≠ .call (.postImages sp) := by
  intro e he sp
  unfold poll_download_operation at he
  split_ifs at he with hc
  · exact pollLoop_no_pull rep.op_id m env.delete_result env.replies 0 e he sp
  · simp at he

/-- C4 — Silently swallowed poll error: a poll response carrying a
nonzero `error_code` terminates the polling loop at once, and the
operation returns normally: no exception is raised, `fetch_image`
still returns its catalog-built image and `update_images` returns
without signalling any failure. -/
theorem poll_error_code_swallowed :
    (∀ (op_id : String) (m : Nat → Int → Bool) (dr : LxdResult Unit) (ec sc : Int)
        (prog : String) (rf : Bool) (rest : List PollReply) (n : Nat), ec ≠ 0 →
      pollLoop op_id m dr (.reply ec sc prog rf :: rest) n =
        ([.call (.getOperation op_id)], .errorCode) ∧
      outcomeResult .errorCode = .ok ()) ∧
    (∀ (cfg : VaultConfig) (env : FetchEnv) (query : Query) (m : Nat → Int → Bool)
        (st : List String) (info : VMImageInfo) (ec sc : Int) (prog : String) (rf : Bool)
        (rest : List PollReply),
      info_for cfg query = .ok info →
      (query.query_type = .Alias ∨ cfg.is_image_url_supported = true) →
      info.id ∉ st →
      env.post_reply.is_task_class = true → env.post_reply.status_code = 100 →
      env.poll.replies = .reply ec sc prog rf :: rest → ec ≠ 0 →
      (fetch_image cfg env query m st).result = .ok (mkSourceImage info)) ∧
    (∀ (env : UpdateEnv) (m : Nat → Int → Bool) (image_info : RemoteImage) (rep : OpReply)
        (ec sc : Int) (prog : String) (rf : Bool) (rest : List PollReply),
      image_info.has_update_source = true →
      env.refresh_reply image_info.fingerprint = .ok rep →
      rep.is_task_class = true → rep.status_code = 100 →
      (env.poll image_info.fingerprint).replies = .reply ec sc prog rf :: rest → ec ≠ 0 →
      (update_images env m [image_info]).1 = .ok ()) := by
  refine ⟨?_, ?_, ?_⟩
  · intro op_id m dr ec sc prog rf rest n hec
    exact ⟨by rw [pollLoop, if_pos hec], rfl⟩
  · intro cfg env query m st info ec sc prog rf rest hinfo htype hmem htask h100 hreplies hec
    have hpoll : poll_download_operation m env.poll env.post_reply =
        ([.call (.getOperation env.post_reply.op_id)], .errorCode) := by
      unfold poll_download_operation
      rw [if_pos ⟨htask, h100⟩, hreplies, pollLoop, if_pos hec]
    rw [fetch_image_miss cfg env query m st info _ _ htype hinfo hmem hpoll]
    rfl
  · intro env m image_info rep ec sc prog rf rest htrack hrefresh htask h100 hreplies hec
    have hpoll : poll_download_operation m (env.poll image_info.fingerprint) rep =
        ([.call (.getOperation rep.op_id)], .errorCode) := by
      unfold poll_download_operation
      rw [if_pos ⟨htask, h100⟩, hreplies, pollLoop, if_pos hec]
    simp [update_images, updateGo, update_one, htrack, hrefresh, hpoll, outcomeResult]

/-- Witness for C4: the failed pull is swallowed and `fetch_image`
returns the catalog-built image. -/
theorem poll_error_code_swallowed_witness :
    (fetch_image testCfg testFetchEnvErr testQuery (fun _ _ => true) []).result =
      .ok (mkSourceImage testInfo) :=
  poll_error_code_swallowed.2.1 testCfg testFetchEnvErr testQuery (fun _ _ => true) []
    testInfo 2 0 "" false [] rfl (Or.inl rfl) (by simp) rfl rfl rfl (by decide)

/-- C5 — Pull request body: whenever the image probe reports not-found,
`fetch_image` issues exactly one `POST /images` whose source object
carries `type="image"`, `mode="pull"`, `protocol="simplestreams"`,
`server=stream_location`, `image_type="virtual-machine"`, and a
`fingerprint` equal to the id when the id starts with `query.release`,
otherwise an `alias` equal to `query.release` — never both. -/
theorem pull_request_body (cfg : VaultConfig) (env : FetchEnv) (query : Query)
    (m : Nat → Int → Bool) (st : List String) (info : VMImageInfo)
    (htype : query.query_type = .Alias ∨ cfg.is_image_url_supported = true)
    (hinfo : info_for cfg query = .ok info) (hmem : info.id ∉ st) :
    Event.call (.postImages (make_source_spec info query.release)) ∈
      (fetch_image cfg env query m st).events ∧
    (∀ sp, Event.call (.postImages sp) ∈ (fetch_image cfg env query m st).events →
      sp = make_source_spec info query.release) ∧
    (make_source_spec info query.release).type = "image" ∧
    (make_source_spec info query.release).mode = "pull" ∧
    (make_source_spec info query.release).protocol = "simplestreams" ∧
    (make_source_spec info query.release).server = info.stream_location ∧
    (make_source_spec info query.release).image_type = "virtual-machine" ∧
    (startsWith info.id query.release = true →
      (make_source_spec info query.release).fingerprint = some info.id ∧
      (make_source_spec info query.release).alias_name = none) ∧
    (startsWith info.id query.release = false →
      (make_source_spec info query.release).fingerprint = none ∧
      (make_source_spec info query.release).alias_name = some query.release) ∧
    ¬((make_source_spec info query.release).fingerprint.isSome = true ∧
      (make_source_spec info query.release).alias_name.isSome = true) := by
  rcases hpoll : poll_download_operation m env.poll env.post_reply with ⟨poll_events, outcome⟩
  have heq := fetch_image_miss cfg env query m st info poll_events outcome
    htype hinfo hmem hpoll
  refine ⟨?_, ?_, rfl, rfl, rfl, rfl, rfl, ?_, ?_, ?_⟩
  · rw [heq]; simp
  · intro sp hsp
    rw [heq] at hsp
    simp only [List.cons_append, List.nil_append, List.mem_cons] at hsp
    rcases hsp with h | h | h | h
    · cases h
    · cases h
    · simp only [Event.call.injEq, LxdCall.postImages.injEq] at h
      exact h
    · have hnp := poll_events_no_pull m env.poll env.post_reply
        (Event.call (.postImages sp)) (by rw [hpoll]; exact h) sp
      exact absurd rfl hnp
  · intro hpref
    simp [make_source_spec, hpref]
  · intro hpref
    simp [make_source_spec, hpref]
  · intro hboth
    by_cases hpref : startsWith info.id query.release
    · have := hboth.2
      simp [make_source_spec, hpref] at this
    · have := hboth.1
      simp [make_source_spec, hpref] at this

/-- Witness for C5: for the concrete alias query, the pull body uses
the `alias` field (the id does not start with the release). -/
theorem pull_request_body_witness :
    Event.call (.postImages (make_source_spec testInfo "jammy")) ∈
      (fetch_image testCfg testFetchEnvErr testQuery (fun _ _ => true) []).events ∧
    (make_source_spec testInfo "jammy").fingerprint = none ∧
    (make_source_spec testInfo "jammy").alias_name = some "jammy" := by
  have h := pull_request_body testCfg testFetchEnvErr testQuery (fun _ _ => true) []
    testInfo (Or.inl rfl) rfl (by simp)
  exact ⟨h.1, (h.2.2.2.2.2.2.2.2.1 (by decide)).1, (h.2.2.2.2.2.2.2.2.1 (by decide)).2⟩

/-- C1 — Idempotent fetch: if a `fetch_image` call succeeds and its
pull (if one was needed) genuinely completed, then repeating the call
with the same query performs the underlying pull at most once in total
and returns the identical `VMImage`; and when the remote already had
the resolved image, the first call issued no pull and returned the
catalog-built image. -/
theorem fetch_image_idempotent (cfg : VaultConfig) (env1 env2 : FetchEnv) (query : Query)
    (m1 m2 : Nat → Int → Bool) (st : List String) (img1 : VMImage)
    (hok : (fetch_image cfg env1 query m1 st).result = .ok img1)
    (hcomplete : ∀ outcome, (fetch_image cfg env1 query m1 st).poll_outcome = some outcome →
      outcomeCompletes outcome = true) :
    (fetch_image cfg env2 query m2
        (fetch_image cfg env1 query m1 st).images_present).result = .ok img1 ∧
    pullCount (fetch_image cfg env1 query m1 st).events +
      pullCount (fetch_image cfg env2 query m2
        (fetch_image cfg env1 query m1 st).images_present).events ≤ 1 ∧
    (∀ info, info_for cfg query = .ok info → info.id ∈ st →
      pullCount (fetch_image cfg env1 query m1 st).events = 0 ∧
      img1 = mkSourceImage info ∧
      ∀ sp, Event.call (.postImages sp) ∉ (fetch_image cfg env1 query m1 st).events) := by
  obtain ⟨htype, info, hinfo, himg, hcase⟩ :=
    fetch_image_ok_cases cfg env1 query m1 st img1 hok
  rcases hcase with ⟨hmem, heq⟩ | ⟨hmem, poll_events, outcome, hpoll, hres, heq⟩
  · have hst : (fetch_image cfg env1 query m1 st).images_present = st := by rw [heq]
    have hsecond := fetch_image_hit cfg env2 query m2 st info htype hinfo hmem
    refine ⟨?_, ?_, ?_⟩
    · rw [hst, hsecond, himg]
    · rw [hst, hsecond, heq]
      simp [pullCount, isPullEvent]
    · intro info2 hinfo2 _
      rw [hinfo] at hinfo2
      cases hinfo2
      refine ⟨by rw [heq]; simp [pullCount, isPullEvent], himg, ?_⟩
      intro sp hsp
      rw [heq] at hsp
      simp at hsp
  · have hout : (fetch_image cfg env1 query m1 st).poll_outcome = some outcome := by rw [heq]
    have hcomp := hcomplete outcome hout
    have hst : (fetch_image cfg env1 query m1 st).images_present = info.id :: st := by
      rw [heq]
      simp [hcomp]
    have hsecond := fetch_image_hit cfg env2 query m2 (info.id :: st) info htype hinfo
      (List.mem_cons_self info.id st)
    have hpe : pullCount poll_events = 0 := by
      have := pullCount_poll m1 env1.poll env1.post_reply
      rw [hpoll] at this
      exact this
    refine ⟨?_, ?_, ?_⟩
    · rw [hst, hsecond, himg]
    · rw [hst, hsecond, heq]
      unfold pullCount at hpe ⊢
      rw [List.countP_append, hpe]
      simp [isPullEvent]
    · intro info2 hinfo2 hmem2
      rw [hinfo] at hinfo2
      cases hinfo2
      exact absurd hmem2 hmem

/-- Witness for C1: fetching the concrete query twice returns the same
image both times and pulls at most once in total. -/
theorem fetch_image_idempotent_witness :
    (fetch_image testCfg testFetchEnvOk testQuery (fun _ _ => true)
        (fetch_image testCfg testFetchEnvOk testQuery (fun _ _ => true) []).images_present).result
      = .ok (mkSourceImage testInfo) ∧
    pullCount (fetch_image testCfg testFetchEnvOk testQuery (fun _ _ => true) []).events +
      pullCount (fetch_image testCfg testFetchEnvOk testQuery (fun _ _ => true)
        (fetch_image testCfg testFetchEnvOk testQuery (fun _ _ => true) []).images_present).events
      ≤ 1 := by
  have h := fetch_image_idempotent testCfg testFetchEnvOk testFetchEnvOk testQuery
    (fun _ _ => true) (fun _ _ => true) [] (mkSourceImage testInfo) rfl ?hcomp
  · exact ⟨h.1, h.2.1⟩
  case hcomp =>
    intro outcome ho
    have hpo : (fetch_image testCfg testFetchEnvOk testQuery (fun _ _ => true) []).poll_outcome
        = some (PollOutcome.success false) := rfl
    rw [hpo] at ho
    cases ho
    rfl

/-! ## Resolver lemmas (claim C2) -/

/-- Value of `assocFind` on the empty map. -/
theorem assocFind_nil (k : String) : assocFind [] k = none := rfl

/-- One step of `assocFind`. -/
theorem assocFind_cons (p : String × ImageHost) (rest : List (String × ImageHost))
    (k : String) :
    assocFind (p :: rest) k = if p.1 = k then some p.2 else assocFind rest k := by
  by_cases h : p.1 = k
  · simp [assocFind, List.find?, h]
  · simp [assocFind, List.find?, h]

/-- Key membership after a `std::map::operator[]` insertion. -/
theorem assocFind_insert (m : List (String × ImageHost)) (k k2 : String) (v : ImageHost) :
    ((assocFind (assocInsert m k v) k2).isSome = true ↔
      (k2 = k ∨ (assocFind m k2).isSome = true)) := by
  induction m with
  | nil =>
    rw [assocInsert, assocFind_cons, assocFind_nil]
    by_cases hk : k = k2
    · subst hk
      simp
    · rw [if_neg hk]
      simp
      exact fun h => hk h.symm
  | cons p rest ih =>
    rw [assocInsert]
    by_cases hp : p.1 = k
    · rw [if_pos hp, assocFind_cons, assocFind_cons]
      by_cases hk : k = k2
      · subst hk
        simp
      · rw [if_neg hk, if_neg (by rw [hp]; exact hk)]
        constructor
        · exact Or.inr
        · rintro (rfl | h)
          · exact absurd rfl hk
          · exact h
    · rw [if_neg hp, assocFind_cons, assocFind_cons]
      by_cases hpk : p.1 = k2
      · simp [hpk]
      · rw [if_neg hpk, if_neg hpk]
        exact ih

/-- Key membership across the per-host fold over its supported
remotes. -/
theorem assocFind_fold_remotes (supported : String → Bool) (host : ImageHost)
    (remotes : List String) (m : List (String × ImageHost)) (r : String) :
    ((assocFind (remotes.foldl
        (fun acc remote => if supported remote then assocInsert acc remote host else acc) m)
      r).isSome = true ↔
      ((assocFind m r).isSome = true ∨ (r ∈ remotes ∧ supported r = true))) := by
  induction remotes generalizing m with
  | nil => simp
  | cons a rest ih =>
    simp only [List.foldl_cons]
    by_cases ha : supported a = true
    · rw [if_pos ha, ih, assocFind_insert]
      constructor
      · rintro ((rfl | hf) | ⟨hr, hs⟩)
        · exact Or.inr ⟨by simp, ha⟩
        · exact Or.inl hf
        · exact Or.inr ⟨by simp [hr], hs⟩
      · rintro (hf | ⟨hr, hs⟩)
        · exact Or.inl (Or.inr hf)
        · rcases List.mem_cons.mp hr with rfl | hr
          · exact Or.inl (Or.inl rfl)
          · exact Or.inr ⟨hr, hs⟩
    · rw [if_neg ha, ih]
      constructor
      · rintro (hf | ⟨hr, hs⟩)
        · exact Or.inl hf
        · exact Or.inr ⟨by simp [hr], hs⟩
      · rintro (hf | ⟨hr, hs⟩)
        · exact Or.inl hf
        · rcases List.mem_cons.mp hr with rfl | hr
          · exact absurd hs ha
          · exact Or.inr ⟨hr, hs⟩

/-- A remote name is a key of the constructed map exactly when the
platform supports it and some registered backend serves it. -/
theorem remote_map_mem (cfg : VaultConfig) (r : String) :
    ((assocFind (remote_image_host_map cfg) r).isSome = true ↔
      (cfg.is_remote_supported r = true ∧
        ∃ h ∈ cfg.image_hosts, r ∈ h.supported_remotes)) := by
  unfold remote_image_host_map
  have key : ∀ (hosts : List ImageHost) (m : List (String × ImageHost)),
      ((assocFind (hosts.foldl
          (fun acc host => host.supported_remotes.foldl
            (fun acc2 remote =>
              if cfg.is_remote_supported remote then assocInsert acc2 remote host else acc2)
            acc) m) r).isSome = true ↔
        ((assocFind m r).isSome = true ∨
          (cfg.is_remote_supported r = true ∧ ∃ h ∈ hosts, r ∈ h.supported_remotes))) := by
    intro hosts
    induction hosts with
    | nil => intro m; simp
    | cons h rest ih =>
      intro m
      simp only [List.foldl_cons]
      rw [ih, assocFind_fold_remotes]
      constructor
      · rintro ((hf | ⟨hr, hs⟩) | ⟨hs, h2, hh2, hr2⟩)
        · exact Or.inl hf
        · exact Or.inr ⟨hs, h, by simp, hr⟩
        · exact Or.inr ⟨hs, h2, by simp [hh2], hr2⟩
      · rintro (hf | ⟨hs, h2, hh2, hr2⟩)
        · exact Or.inl (Or.inl hf)
        · rcases List.mem_cons.mp hh2 with rfl | hh2
          · exact Or.inl (Or.inr ⟨hr2, hs⟩)
          · exact Or.inr ⟨hs, h2, hh2, hr2⟩
  rw [key cfg.image_hosts []]
  simp [assocFind, List.find?]

/-- The function `findSome?` returns the first hit when everything before it
misses. -/
theorem findSome_first {α β : Type} (f : α → Option β) (pre : List α) (x : α)
    (post : List α) (b : β)
    (hpre : ∀ a ∈ pre, f a = none) (hx : f x = some b) :
    (pre ++ x :: post).findSome? f = some b := by
  induction pre with
  | nil => simp [List.findSome?, hx]
  | cons p ps ih =>
    have hp : f p = none := hpre p (by simp)
    simp only [List.cons_append, List.findSome?, hp]
    exact ih fun a ha => hpre a (by simp [ha])

/-- The function `findSome?` misses when every element misses. -/
theorem findSome_none {α β : Type} (f : α → Option β) (l : List α)
    (h : ∀ a ∈ l, f a = none) : l.findSome? f = none := by
  induction l with
  | nil => rfl
  | cons p ps ih =>
    have hp : f p = none := h p (by simp)
    simp only [List.findSome?, hp]
    exact ih fun a ha => h a (by simp [ha])

/-- C2 — Resolution algorithm: a non-empty `remote_name` is looked up
in the remote-name-to-backend map (built at construction from each
backend's `supported_remotes`, filtered by the platform predicate) and
resolution fails with `UnknownRemoteError` when it is absent; an empty
`remote_name` consults all registered backends in registration order
and returns the first non-empty result, failing with `NotFoundError`
when none yields a result. -/
theorem info_for_resolution (cfg : VaultConfig) (query : Query) :
    (query.remote_name ≠ "" →
      ¬(cfg.is_remote_supported query.remote_name = true ∧
        ∃ h ∈ cfg.image_hosts, query.remote_name ∈ h.supported_remotes) →
      info_for cfg query = .error (.unknownRemote query.remote_name)) ∧
    (query.remote_name = "" → ∀ pre host post info,
      cfg.image_hosts = pre ++ host :: post →
      (∀ h ∈ pre, h.info_for query = none) →
      host.info_for query = some info →
      info_for cfg query = .ok info) ∧
    (query.remote_name = "" →
      (∀ h ∈ cfg.image_hosts, h.info_for query = none) →
      info_for cfg query = .error (.notFound query.release)) := by
  refine ⟨?_, ?_, ?_⟩
  · intro hne habs
    have hnone : assocFind (remote_image_host_map cfg) query.remote_name = none := by
      cases hf : assocFind (remote_image_host_map cfg) query.remote_name with
      | none => rfl
      | some v =>
        exact absurd ((remote_map_mem cfg query.remote_name).mp (by rw [hf]; rfl)) habs
    unfold info_for
    rw [if_pos hne, hnone]
  · intro hempty pre host post info hsplit hpre hhost
    unfold info_for
    rw [if_neg (by simp [hempty]), hsplit,
      findSome_first (fun image_host => image_host.info_for query) pre host post info
        hpre hhost]
  · intro hempty hall
    unfold info_for
    rw [if_neg (by simp [hempty]),
      findSome_none (fun image_host => image_host.info_for query) cfg.image_hosts hall]

/-- Witness for C2: an unregistered remote is rejected, and the
first-match scan resolves the concrete alias query. -/
theorem info_for_resolution_witness :
    info_for testCfg
      { name := "foo", release := "jammy", remote_name := "nope", query_type := .Alias } =
      .error (.unknownRemote "nope") ∧
    info_for testCfg testQuery = .ok testInfo := by
  constructor
  · exact (info_for_resolution testCfg
      { name := "foo", release := "jammy", remote_name := "nope", query_type := .Alias }).1
      (by decide) (by decide)
  · exact (info_for_resolution testCfg testQuery).2.1 rfl [] testHost [] testInfo rfl
      (by simp) rfl

/-! ## Best-effort independence and `update_images` propagation
(claims C9, C10) -/

/-- Insertion via `assocInsert` preserves entry agreement. -/
theorem assocInsert_rel (m m2 : List (String × ImageHost)) (k : String)
    (v v2 : ImageHost) (hm : List.Forall₂ entryAgree m m2) (hv : hostsAgree v v2) :
    List.Forall₂ entryAgree (assocInsert m k v) (assocInsert m2 k v2) := by
  induction hm with
  | nil => exact List.Forall₂.cons ⟨rfl, hv⟩ List.Forall₂.nil
  | cons hpq hrest ih =>
    rename_i p q rest rest2
    rw [assocInsert, assocInsert]
    by_cases hp : p.1 = k
    · rw [if_pos hp, if_pos (by rw [← hpq.1]; exact hp)]
      exact List.Forall₂.cons ⟨rfl, hv⟩ hrest
    · rw [if_neg hp, if_neg (by rw [← hpq.1]; exact hp)]
      exact List.Forall₂.cons hpq ih

/-- Lookup via `assocFind` on entry-agreeing maps returns agreeing results. -/
theorem assocFind_rel (m m2 : List (String × ImageHost)) (k : String)
    (hm : List.Forall₂ entryAgree m m2) :
    (assocFind m k = none ∧ assocFind m2 k = none) ∨
    (∃ v v2, assocFind m k = some v ∧ assocFind m2 k = some v2 ∧ hostsAgree v v2) := by
  induction hm with
  | nil => exact Or.inl ⟨rfl, rfl⟩
  | cons hpq hrest ih =>
    rename_i p q rest rest2
    rw [assocFind_cons, assocFind_cons]
    by_cases hp : p.1 = k
    · rw [if_pos hp, if_pos (by rw [← hpq.1]; exact hp)]
      exact Or.inr ⟨p.2, q.2, rfl, rfl, hpq.2⟩
    · rw [if_neg hp, if_neg (by rw [← hpq.1]; exact hp)]
      exact ih

/-- The constructed remote maps of two configurations with agreeing
hosts and the same platform predicate agree entrywise. -/
theorem remote_map_rel (cfg cfg2 : VaultConfig)
    (hhosts : List.Forall₂ hostsAgree cfg.image_hosts cfg2.image_hosts)
    (hsup : cfg.is_remote_supported = cfg2.is_remote_supported) :
    List.Forall₂ entryAgree (remote_image_host_map cfg) (remote_image_host_map cfg2) := by
  unfold remote_image_host_map
  rw [← hsup]
  have inner : ∀ (remotes : List String) (v v2 : ImageHost)
      (m m2 : List (String × ImageHost)), hostsAgree v v2 →
      List.Forall₂ entryAgree m m2 →
      List.Forall₂ entryAgree
        (remotes.foldl (fun acc remote =>
          if cfg.is_remote_supported remote then assocInsert acc remote v else acc) m)
        (remotes.foldl (fun acc remote =>
          if cfg.is_remote_supported remote then assocInsert acc remote v2 else acc) m2) := by
    intro remotes
    induction remotes with
    | nil => intro v v2 m m2 _ hm; exact hm
    | cons a rest ih =>
      intro v v2 m m2 hv hm
      simp only [List.foldl_cons]
      by_cases ha : cfg.is_remote_supported a = true
      · rw [if_pos ha, if_pos ha]
        exact ih v v2 _ _ hv (assocInsert_rel m m2 a v v2 hm hv)
      · rw [if_neg ha, if_neg ha]
        exact ih v v2 m m2 hv hm
  have outer : ∀ (hosts hosts2 : List ImageHost)
      (m m2 : List (String × ImageHost)), List.Forall₂ hostsAgree hosts hosts2 →
      List.Forall₂ entryAgree m m2 →
      List.Forall₂ entryAgree
        (hosts.foldl (fun acc image_host =>
          image_host.supported_remotes.foldl (fun acc2 remote =>
            if cfg.is_remote_supported remote then assocInsert acc2 remote image_host
            else acc2) acc) m)
        (hosts2.foldl (fun acc image_host =>
          image_host.supported_remotes.foldl (fun acc2 remote =>
            if cfg.is_remote_supported remote then assocInsert acc2 remote image_host
            else acc2) acc) m2) := by
    intro hosts hosts2 m m2 hh
    induction hh generalizing m m2 with
    | nil => intro hm; exact hm
    | cons hpq hrest ih =>
      rename_i p q rest rest2
      intro hm
      simp only [List.foldl_cons]
      apply ih
      rw [← hpq.1]
      exact inner p.supported_remotes p q m m2 hpq hm
  exact outer cfg.image_hosts cfg2.image_hosts [] [] hhosts List.Forall₂.nil

/-- Mapping `findSome?` over `info_for` agrees across agreeing host lists. -/
theorem findSome_agree (hosts hosts2 : List ImageHost) (query : Query)
    (hh : List.Forall₂ hostsAgree hosts hosts2) :
    hosts.findSome? (fun image_host => image_host.info_for query) =
      hosts2.findSome? (fun image_host => image_host.info_for query) := by
  induction hh with
  | nil => rfl
  | cons hpq hrest ih =>
    rename_i p q rest rest2
    simp only [List.findSome?]
    rw [hpq.2]
    cases q.info_for query with
    | none => exact ih
    | some i => rfl

/-- Resolution sees only `supported_remotes` and `info_for`, so two
configurations agreeing there resolve identically. -/
theorem info_for_agree (cfg cfg2 : VaultConfig) (query : Query)
    (hhosts : List.Forall₂ hostsAgree cfg.image_hosts cfg2.image_hosts)
    (hsup : cfg.is_remote_supported = cfg2.is_remote_supported) :
    info_for cfg query = info_for cfg2 query := by
  unfold info_for
  by_cases hne : query.remote_name ≠ ""
  · rw [if_pos hne, if_pos hne]
    rcases assocFind_rel _ _ query.remote_name
        (remote_map_rel cfg cfg2 hhosts hsup) with ⟨h1, h2⟩ | ⟨v, v2, h1, h2, hv⟩
    · rw [h1, h2]
    · rw [h1, h2]
      simp [hv.2]
  · rw [if_neg hne, if_neg hne,
      findSome_agree cfg.image_hosts cfg2.image_hosts query hhosts]

/-- The call `fetch_image` is unaffected by the instance-probe response and by
each host's `info_for_full_hash`: those feed only the discarded
best-effort block. -/
theorem fetch_image_env_indep (cfg cfg2 : VaultConfig) (env : FetchEnv)
    (probe2 : LxdResult String) (query : Query) (m : Nat → Int → Bool) (st : List String)
    (hhosts : List.Forall₂ hostsAgree cfg.image_hosts cfg2.image_hosts)
    (hsup : cfg.is_remote_supported = cfg2.is_remote_supported)
    (hurl : cfg.is_image_url_supported = cfg2.is_image_url_supported) :
    fetch_image cfg2 { env with instance_probe := probe2 } query m st =
      fetch_image cfg env query m st := by
  have hinfo : info_for cfg2 query = info_for cfg query :=
    (info_for_agree cfg cfg2 query hhosts hsup).symm
  unfold fetch_image
  simp only [hinfo, ← hurl]

/-- C9 (amended) — Best-effort lookups in `fetch_image` never
propagate: the whole call is independent of the instance-probe response
and of the hosts' full-hash lookup behavior.  Inside `update_images`,
however, only the polling loop's not-found responses are tolerated: a
transport error on one tracked image's refresh propagates out of
`update_images` and the remaining tracked images are not refreshed. -/
theorem best_effort_swallowed_update_propagates :
    (∀ (cfg cfg2 : VaultConfig) (env : FetchEnv) (probe2 : LxdResult String)
        (query : Query) (m : Nat → Int → Bool) (st : List String),
      List.Forall₂ hostsAgree cfg.image_hosts cfg2.image_hosts →
      cfg.is_remote_supported = cfg2.is_remote_supported →
      cfg.is_image_url_supported = cfg2.is_image_url_supported →
      fetch_image cfg2 { env with instance_probe := probe2 } query m st =
        fetch_image cfg env query m st) ∧
    (∀ (env : UpdateEnv) (m : Nat → Int → Bool) (image_info : RemoteImage)
        (rest : List RemoteImage),
      image_info.has_update_source = true →
      env.refresh_reply image_info.fingerprint = .err →
      update_images env m (image_info :: rest) =
        (.error .transport, [.call .getImages, .logInfo image_info.release,
          .call (.postRefresh image_info.fingerprint)])) := by
  constructor
  · intro cfg cfg2 env probe2 query m st hhosts hsup hurl
    exact fetch_image_env_indep cfg cfg2 env probe2 query m st hhosts hsup hurl
  · intro env m image_info rest htrack herr
    simp [update_images, updateGo, update_one, htrack, herr]

/-- Counterexample to C9 as stated: with two tracked images, a
transport error while processing the first one makes `update_images`
fail (the error propagates to the caller) and the second tracked image
is never refreshed. -/
theorem update_images_error_propagates :
    (update_images testUpdateEnvErr (fun _ _ => true) [testImage, testImage2]).1 =
      .error .transport ∧
    Event.call (.postRefresh "cd5678") ∉
      (update_images testUpdateEnvErr (fun _ _ => true) [testImage, testImage2]).2 := by
  exact ⟨rfl, by decide⟩

/-- Witness for C9 (amended): a concrete probe change leaves the fetch
untouched, and a concrete refresh error propagates with the listed
trace. -/
theorem best_effort_swallowed_update_propagates_witness :
    fetch_image testCfg { testFetchEnvOk with instance_probe := .err } testQuery
        (fun _ _ => true) [] =
      fetch_image testCfg testFetchEnvOk testQuery (fun _ _ => true) [] ∧
    update_images testUpdateEnvErr (fun _ _ => true) [testImage] =
      (.error .transport, [.call .getImages, .logInfo "jammy",
        .call (.postRefresh "ab1234")]) := by
  constructor
  · exact best_effort_swallowed_update_propagates.1 testCfg testCfg testFetchEnvOk .err
      testQuery (fun _ _ => true) []
      ((List.forall₂_same).mpr fun x _ => ⟨rfl, rfl⟩) rfl rfl
  · exact best_effort_swallowed_update_propagates.2 testUpdateEnvErr (fun _ _ => true)
      testImage [] rfl rfl

/-- C10 — Result shape of the remote vault's `fetch_image`: every
returned `VMImage` has empty local image/kernel/initrd paths, its
metadata is taken entirely from the freshly catalog-resolved info
(id, stream location, original release from the release title, release
date from the version string, aliases in catalog order), and the
base-image id recovered from an existing remote instance has no effect
on the returned value. -/
theorem fetch_image_result_shape (cfg : VaultConfig) (env : FetchEnv) (query : Query)
    (m : Nat → Int → Bool) (st : List String) (img : VMImage)
    (h : (fetch_image cfg env query m st).result = .ok img) :
    img.image_path = "" ∧ img.kernel_path = "" ∧ img.initrd_path = "" ∧
    (∃ info, info_for cfg query = .ok info ∧ img.id = info.id ∧
      img.stream_location = info.stream_location ∧
      img.original_release = info.release_title ∧
      img.release_date = info.version ∧ img.aliases = info.aliases) ∧
    (∀ probe2, (fetch_image cfg { env with instance_probe := probe2 } query m st).result =
      (fetch_image cfg env query m st).result) := by
  obtain ⟨htype, info, hinfo, himg, _⟩ := fetch_image_ok_cases cfg env query m st img h
  subst himg
  refine ⟨rfl, rfl, rfl, ⟨info, hinfo, rfl, rfl, rfl, rfl, rfl⟩, ?_⟩
  intro probe2
  rw [fetch_image_env_indep cfg cfg env probe2 query m st
    ((List.forall₂_same).mpr fun x _ => ⟨rfl, rfl⟩) rfl rfl]

/-- Witness for C10 at the concrete query: the returned image has empty
path fields. -/
theorem fetch_image_result_shape_witness :
    (mkSourceImage testInfo).image_path = "" ∧
    (mkSourceImage testInfo).kernel_path = "" ∧
    (mkSourceImage testInfo).initrd_path = "" := by
  have h := fetch_image_result_shape testCfg testFetchEnvOk testQuery (fun _ _ => true) []
    (mkSourceImage testInfo) rfl
  exact ⟨h.1, h.2.1, h.2.2.1⟩

end Multipass
